import Mathlib

/-!
Verification of the macOS PTY multiline-bug reproducer repository.

The repository contains two JavaScript reproducer harnesses:
  * `repro-node-pty.js` — spawns a shell in a pseudo-terminal through the
    node-pty library, writes a synthetic multiline command using one of
    three write strategies, and races marker detection against a timeout;
  * `vscode-extension/extension.js` — sends the command through the
    editor's `sendText` API and polls a temporary result file for a
    marker; `run-tests.js` / `test-suite.js` drive it under CI.

Strings are modelled as `List Char` (the payloads are ASCII, so character
count and byte count coincide).  JavaScript number-to-string interpolation
is modelled by `natToDec`, asynchronous event interleaving by explicit
event lists, and the ambient world (clock, random suffix, file system,
pty data) by explicit parameters.
-/

set_option maxHeartbeats 1000000
set_option maxRecDepth 100000

namespace PtyRepro

/-- Character list of a string literal. -/
def str (s : String) : List Char := s.data

/-- Decimal digits of a natural number, fuel-based so that it reduces in
the kernel.  `natToDecAux (n+1) n` yields the full decimal form of `n`. -/
def natToDecAux (fuel n : Nat) : List Char :=
  match fuel with
  | 0 => []
  | fuel + 1 =>
    if n < 10 then [Nat.digitChar n]
    else natToDecAux fuel (n / 10) ++ [Nat.digitChar (n % 10)]

/-- Decimal representation of a natural number, as produced by JavaScript
template interpolation of a number (e.g. the `numLines` and `Date.now()`
values spliced into markers and file names). -/
def natToDec (n : Nat) : List Char := natToDecAux (n + 1) n

/-- Does `p` start the list `s`?  (Helper for substring search.) -/
def startsWith : List Char → List Char → Bool
  | [], _ => true
  | _ :: _, [] => false
  | p :: ps, c :: cs => (p = c) && startsWith ps cs

/-- Does `pat` occur contiguously inside `s`?  Models JavaScript
`String.includes` and literal regular-expression tests. -/
def containsSeq (pat : List Char) : List Char → Bool
  | [] => pat.isEmpty
  | c :: rest => startsWith pat (c :: rest) || containsSeq pat rest

/-- JavaScript `String.split(sep)` for a one-character separator. -/
def splitOnC (sep : Char) : List Char → List (List Char)
  | [] => [[]]
  | c :: cs =>
    if c = sep then [] :: splitOnC sep cs
    else
      match splitOnC sep cs with
      | [] => [[c]]
      | l :: ls => (c :: l) :: ls

/-- JavaScript `Array.join(sep)` for a one-character separator. -/
def joinSep (sep : Char) : List (List Char) → List Char
  | [] => []
  | [l] => l
  | l :: ls => l ++ sep :: joinSep sep ls

/-- Whitespace characters removed by JavaScript `String.trim` (the ones
that can occur in the reproducer's shell output). -/
def isJsSpace (c : Char) : Bool := c = ' ' || c = '\n' || c = '\t' || c = '\r'

/-- JavaScript `String.trim`. -/
def trim (s : List Char) : List Char :=
  (((s.dropWhile isJsSpace).reverse).dropWhile isJsSpace).reverse

/-! ## The three write strategies (`STRATEGIES` in repro-node-pty.js)

Each strategy is modelled by the sequence of `ptyProcess.write` payloads
it issues for a given command string; the interleaved `sleep` delays do
not change the transmitted characters. -/

/-- `single-write`: one `ptyProcess.write(cmd)`. -/
def singleWrite (cmd : List Char) : List (List Char) := [cmd]

/-- `line-by-line`: `cmd.split('\n')`, then one write per part with a
newline appended (`ptyProcess.write(line + '\n')`). -/
def lineByLine (cmd : List Char) : List (List Char) :=
  (splitOnC '\n' cmd).map (fun l => l ++ ['\n'])

/-- Fuel-based worker for `chunked-1024`; fuel `cmd.length` suffices
because every round consumes at least one character. -/
def chunkedAux (fuel : Nat) (cmd : List Char) : List (List Char) :=
  match fuel with
  | 0 => []
  | fuel + 1 =>
    if cmd = [] then []
    else cmd.take 1024 :: chunkedAux fuel (cmd.drop 1024)

/-- `chunked-1024`: writes `cmd.slice(i, i + 1024)` for `i = 0, 1024, …`. -/
def chunked1024 (cmd : List Char) : List (List Char) :=
  chunkedAux cmd.length cmd

/-! ## Test-case construction

`buildEchoCommand` (repro-node-pty.js) and `buildTest` (extension.js)
generate the same multiline payload; the nondeterministic inputs
`Date.now()` and the base-36 random suffix are explicit parameters
`now` and `rand`. -/

/-- JavaScript `String.padStart(2, '0')`. -/
def padStart2 (s : List Char) : List Char :=
  if s.length < 2 then List.replicate (2 - s.length) '0' ++ s else s

/-- One payload line: `L<i padded to 2> <'a' repeated lineLength times>`. -/
def payloadLine (i lineLength : Nat) : List Char :=
  str "L" ++ padStart2 (natToDec i) ++ str " " ++ List.replicate lineLength 'a'

/-- The multiline payload: lines for `i = 1 … numLines` joined with
newlines (`lines.join('\n')`). -/
def payloadContent (numLines lineLength : Nat) : List Char :=
  joinSep '\n' ((List.range' 1 numLines).map (fun i => payloadLine i lineLength))

/-- Marker generated by `buildEchoCommand`:
`__DONE_<numLines>_<Date.now()>_<random>__`. -/
def nodePtyMarker (numLines now : Nat) (rand : List Char) : List Char :=
  str "__DONE_" ++ natToDec numLines ++ str "_" ++ natToDec now ++ str "_" ++
    rand ++ str "__"

/-- Marker generated by `buildTest`:
`DONE_<numLines>_<Date.now()>_<random>`. -/
def extMarker (numLines now : Nat) (rand : List Char) : List Char :=
  str "DONE_" ++ natToDec numLines ++ str "_" ++ natToDec now ++ str "_" ++ rand

structure EchoCommand where
  cmd : List Char
  marker : List Char
deriving DecidableEq

/-- `buildEchoCommand(numLines, lineLength)` from repro-node-pty.js:
the command is `echo '<content>' | wc -c; echo <marker>\n`. -/
def buildEchoCommand (numLines lineLength now : Nat) (rand : List Char) :
    EchoCommand :=
  let content := payloadContent numLines lineLength
  let marker := nodePtyMarker numLines now rand
  { cmd := str "echo '" ++ content ++ str "' | wc -c; echo " ++ marker ++ str "\n"
    marker := marker }

structure ExtTest where
  cmd : List Char
  marker : List Char
  tmpFile : List Char
  cmdBytes : Nat
deriving DecidableEq

/-- `buildTest(numLines, lineLength)` from extension.js: the command is
`echo '<content>' | wc -c > <tmpFile> && echo <marker> >> <tmpFile>`,
with `tmpFile = path.join(os.tmpdir(), 'pty-repro-<pid>-<numLines>-<now>.txt')`;
`cmdBytes` records `Buffer.byteLength(cmd)` (the payload is ASCII, so it
equals the character count). -/
def buildTest (numLines lineLength : Nat) (tmpdir : List Char) (pid now : Nat)
    (rand : List Char) : ExtTest :=
  let content := payloadContent numLines lineLength
  let marker := extMarker numLines now rand
  let tmpFile := tmpdir ++ str "/pty-repro-" ++ natToDec pid ++ str "-" ++
    natToDec numLines ++ str "-" ++ natToDec now ++ str ".txt"
  let cmd := str "echo '" ++ content ++ str "' | wc -c > " ++ tmpFile ++
    str " && echo " ++ marker ++ str " >> " ++ tmpFile
  { cmd := cmd, marker := marker, tmpFile := tmpFile, cmdBytes := cmd.length }

/-- Byte count reported by the shell pipeline `echo '<content>' | wc -c`.
Modelled from the spec: `echo` writes its argument followed by one
newline, and the byte-count command reports the number of bytes written
(the shell itself is external to the repository). -/
def wcBytes (content : List Char) : Nat := content.length + 1

/-! ## The node-pty test machine (`testNodePty` in repro-node-pty.js)

A run of `testNodePty` is an event loop: pty data callbacks, the
`TIMEOUT_MS` timer, and a possible rejection of the strategy's write
promise race to call `finish`, which resolves the promise at most once.
A run is modelled as a fold of `ptyStep` over an arbitrary event list;
`clearTimeout` in `finish` merely prevents later timer events, which the
`finished` guard already makes no-ops, so allowing every event sequence
is a sound over-approximation. -/

structure TestResult where
  success : Bool
  reason : List Char
  cmdBytes : Nat
  output : List Char
deriving DecidableEq

inductive PtyEvent where
  | data (d : List Char)
  | timeout
  | writeError (msg : List Char)

structure PtyState where
  output : List Char
  finished : Bool
  killed : Bool
  result : Option TestResult
deriving DecidableEq

/-- Initial state of a `testNodePty` run: `output = ''`, `finished = false`. -/
def ptyInit : PtyState :=
  { output := [], finished := false, killed := false, result := none }

/-- `finish(success, reason)`: `if (finished) return;` then set the flag,
clear the timer, kill the pty process and resolve the promise with
`{ success, reason, cmdBytes, output }`. -/
def finish (cmdBytes : Nat) (st : PtyState) (success : Bool)
    (reason : List Char) : PtyState :=
  if st.finished then st
  else
    { st with
      finished := true
      killed := true
      result := some { success := success, reason := reason,
                       cmdBytes := cmdBytes, output := st.output } }

/-- One event of a `testNodePty` run:
  * `onData` appends the chunk to `output` and calls `finish(true, 'OK')`
    when the accumulated output contains the marker;
  * the timeout timer classifies the output tail for continuation
    prompts (`/heredoc>/`, `/(?:quote|dquote)>/`) and calls
    `finish(false, reason)`;
  * a rejected write calls `finish(false, 'WRITE_ERROR: ' + message)`. -/
def ptyStep (marker : List Char) (cmdBytes : Nat) (st : PtyState) :
    PtyEvent → PtyState
  | .data d =>
    let st1 := { st with output := st.output ++ d }
    if containsSeq marker st1.output then finish cmdBytes st1 true (str "OK")
    else st1
  | .timeout =>
    let hasHeredocPrompt := containsSeq (str "heredoc>") st.output
    let hasQuotePrompt :=
      containsSeq (str "quote>") st.output || containsSeq (str "dquote>") st.output
    let reason :=
      if hasHeredocPrompt then str "STUCK (heredoc>)"
      else if hasQuotePrompt then str "STUCK (quote>)"
      else str "TIMEOUT"
    finish cmdBytes st false reason
  | .writeError msg => finish cmdBytes st false (str "WRITE_ERROR: " ++ msg)

/-- A whole `testNodePty` run over a given event sequence. -/
def ptyRun (marker : List Char) (cmdBytes : Nat) (evs : List PtyEvent) :
    PtyState :=
  evs.foldl (ptyStep marker cmdBytes) ptyInit

/-! ## The node-pty `main` driver -/

/-- `testSizes` from `main` in repro-node-pty.js. -/
def testSizes : List Nat := [18, 20, 25]

/-- `Object.keys(STRATEGIES)`, in declaration order. -/
def strategyNames : List (List Char) :=
  [str "single-write", str "line-by-line", str "chunked-1024"]

/-- The results `main` collects: one `testNodePty` call per strategy and
test size, in loop order; `run` gives the outcome of each call. -/
def mainResults (run : List Char → Nat → TestResult) : List TestResult :=
  (strategyNames.map (fun s => testSizes.map (fun n => run s n))).flatten

/-- `totalFailures` accumulated by `main`: one per unsuccessful result. -/
def totalFailures (rs : List TestResult) : Nat :=
  (rs.filter (fun r => !r.success)).length

/-- Exit status of `main`: `process.exit(totalFailures > 0 ? 1 : 0)`. -/
def mainExitCode (run : List Char → Nat → TestResult) : Nat :=
  if totalFailures (mainResults run) > 0 then 1 else 0

/-! ## The extension's `runSingleTest` (extension.js)

The world visible to one `runSingleTest` call is modelled by `ExtEnv`:
whether `terminal.sendText` (or anything else in the `try` block) throws,
and the content the temporary result file has at each 300 ms poll
attempt.  The `TIMEOUT_MS` window allows a bounded number of poll
attempts, modelled by the fuel `env.polls`; attempt index `env.polls`
is the final read performed after the deadline has passed. -/

structure ExtEnv where
  sendThrows : Option (List Char)
  fileAt : Nat → Option (List Char)
  polls : Nat

/-- Externally visible resource actions of `runSingleTest`, in order:
the pre-cleanup `fs.unlinkSync`, `createTerminal`, `sendText`, and the
`finally` block's `terminal.dispose()` and `fs.unlinkSync`. -/
inductive ExtAction where
  | unlinkTmp
  | createTerminal
  | sendText
  | dispose
deriving DecidableEq

structure SingleResult where
  success : Bool
  reason : List Char
  cmdBytes : Nat
deriving DecidableEq

/-- The polling loop: while the deadline has not passed, read the file,
and return success as soon as the trimmed content contains the marker
(a read of a nonexistent file is caught and ignored). -/
def pollLoop (marker : List Char) (fileAt : Nat → Option (List Char)) :
    Nat → Nat → Bool
  | 0, _ => false
  | rem + 1, i =>
    match fileAt i with
    | some content =>
      if containsSeq marker (trim content) then true
      else pollLoop marker fileAt rem (i + 1)
    | none => pollLoop marker fileAt rem (i + 1)

/-- `runSingleTest(numLines)` from extension.js.  The first component is
the settled promise (`Except.error` when the `try` body threw, which the
sole throwing step `sendText` triggers); the second is the ordered list
of resource actions.  The `finally` block always appends
`terminal.dispose()` followed by the temp-file unlink. -/
def runSingleTest (numLines : Nat) (tmpdir : List Char) (pid now : Nat)
    (rand : List Char) (env : ExtEnv) :
    Except (List Char) SingleResult × List ExtAction :=
  let test := buildTest numLines 50 tmpdir pid now rand
  match env.sendThrows with
  | some msg =>
    (Except.error msg,
     [ExtAction.unlinkTmp, ExtAction.createTerminal, ExtAction.sendText,
      ExtAction.dispose, ExtAction.unlinkTmp])
  | none =>
    let body : SingleResult :=
      if pollLoop test.marker env.fileAt env.polls 0 then
        { success := true, reason := str "OK", cmdBytes := test.cmdBytes }
      else
        match env.fileAt env.polls with
        | some content =>
          { success := false
            reason := str "TIMEOUT (partial file: " ++ (trim content).take 50 ++
              str ")"
            cmdBytes := test.cmdBytes }
        | none =>
          { success := false
            reason := str "TIMEOUT (no output file — command likely stuck in quote> mode)"
            cmdBytes := test.cmdBytes }
    (Except.ok body,
     [ExtAction.unlinkTmp, ExtAction.createTerminal, ExtAction.sendText,
      ExtAction.dispose, ExtAction.unlinkTmp])

/-! ## The extension's `runAllTests` (extension.js)

Each test size runs a fixed number of iterations; the loop body calls
`runSingleTest` on every iteration and only tallies `passed` / `failed`
counters — nothing in it aborts, skips or retries.  The per-size loop is
modelled with the per-iteration outcome supplied by `outcome`, and the
call trace records every iteration index on which `runSingleTest` runs. -/

/-- `iterations` from `runAllTests`: each size runs three times. -/
def iterations : Nat := 3

/-- `testSizes` from `runAllTests`. -/
def extTestSizes : List Nat := [18, 20, 25, 30]

structure SizeResult where
  numLines : Nat
  passed : Nat
  failed : Nat
deriving DecidableEq

/-- The inner `for (let i = 0; i < iterations; i++)` loop of
`runAllTests`, from iteration index `i` with `rem` iterations left:
returns the `passed` and `failed` counters and the trace of iteration
indices at which `runSingleTest` was called. -/
def sizeIterGo (outcome : Nat → Bool) (i : Nat) : Nat → Nat × Nat × List Nat
  | 0 => (0, 0, [])
  | rem + 1 =>
    let r := outcome i
    let rest := sizeIterGo outcome (i + 1) rem
    (if r then rest.1 + 1 else rest.1,
     if r then rest.2.1 else rest.2.1 + 1,
     i :: rest.2.2)

/-- The whole iteration loop for one test size. -/
def sizeIterLoop (outcome : Nat → Bool) : Nat × Nat × List Nat :=
  sizeIterGo outcome 0 iterations

/-- The outer loop of `runAllTests` over the given sizes:
returns the accumulated failure count, the per-size results, and the
global trace of `(numLines, iteration)` pairs at which `runSingleTest`
was called. -/
def runAllTestsGo (outcome : Nat → Nat → Bool) :
    List Nat → Nat × List SizeResult × List (Nat × Nat)
  | [] => (0, [], [])
  | n :: rest =>
    let s := sizeIterLoop (outcome n)
    let r := runAllTestsGo outcome rest
    (s.2.1 + r.1,
     { numLines := n, passed := s.1, failed := s.2.1 } :: r.2.1,
     s.2.2.map (fun i => (n, i)) ++ r.2.2)

/-- `runAllTests(log)` from extension.js, with the per-call outcome of
`runSingleTest` supplied by `outcome : numLines → iteration → success`. -/
def runAllTests (outcome : Nat → Nat → Bool) :
    Nat × List SizeResult × List (Nat × Nat) :=
  runAllTestsGo outcome extTestSizes

/-! ## The CI test-suite runner (`run` in test-suite.js) and the
`ptyRepro.run` command (`activate` in extension.js) -/

/-- File-system and notification effects the editor-hosted variants can
perform besides console/output-channel logging (which is not modelled). -/
inductive HostAction where
  | writeResultsFile (failures : Nat) (results : List SizeResult)
  | showErrorMessage
  | showInformationMessage
deriving DecidableEq

/-- `run()` from test-suite.js after `runAllTests` returned
`(failures, results)`: only when `failures > 0` does it write
`vscode-test-results.json` (with the failures and per-size results) and
reject with an error; otherwise it resolves without writing anything. -/
def suiteRun (failures : Nat) (results : List SizeResult) :
    List HostAction × Except (List Char) Unit :=
  if failures > 0 then
    ([HostAction.writeResultsFile failures results],
     Except.error (str "FAILED — PTY multiline bug is present"))
  else ([], Except.ok ())

/-- The `ptyRepro.run` command handler registered by `activate` in
extension.js, after `runAllTests` returned `failures`: it shows an error
or an information notification and writes no file at all. -/
def ptyReproRunCommand (failures : Nat) : List HostAction :=
  if failures > 0 then [HostAction.showErrorMessage]
  else [HostAction.showInformationMessage]

/-- The nine test cases run by the node-pty `main`, in loop order:
every strategy paired with every test size. -/
def nodePtyCases : List (List Char × Nat) :=
  (strategyNames.map (fun s => testSizes.map (fun n => (s, n)))).flatten

/-- The marker generated for the `i`-th test case of a node-pty run,
where `env` assigns each `buildEchoCommand` call its `Date.now()` value
and random suffix. -/
def caseMarker (env : Nat → Nat × List Char) (i : Nat) : List Char :=
  match nodePtyCases[i]? with
  | some c => nodePtyMarker c.2 (env i).1 (env i).2
  | none => []

/-- The failure-classification taxonomy for a settled `testNodePty`
result: success carries reason `OK` and an output containing the marker;
failure carries a timeout, stuck-continuation-prompt, or write-error
reason. -/
def reasonInTaxonomy (marker : List Char) (r : TestResult) : Prop :=
  (r.success = true ∧ r.reason = str "OK" ∧
    containsSeq marker r.output = true) ∨
  (r.success = false ∧
    (r.reason = str "TIMEOUT" ∨ r.reason = str "STUCK (heredoc>)" ∨
     r.reason = str "STUCK (quote>)" ∨
     ∃ m, r.reason = str "WRITE_ERROR: " ++ m))

/-- The timeout failure reason as the specification words it:
`STUCK (heredoc>)` if a heredoc prompt appears in the captured output,
otherwise `STUCK (quote>)` if a quote or dquote prompt appears there,
otherwise `TIMEOUT`. -/
def specTimeoutReason (output : List Char) : List Char :=
  if containsSeq (str "heredoc>") output = true then str "STUCK (heredoc>)"
  else if containsSeq (str "quote>") output = true ∨
      containsSeq (str "dquote>") output = true then str "STUCK (quote>)"
  else str "TIMEOUT"

/-- Value of a decimal digit character. -/
def decVal (c : Char) : Nat := c.toNat - '0'.toNat

/-- Reads a decimal digit string back into a number (left inverse of
`natToDec`, used only in proofs). -/
def decToNat (l : List Char) : Nat :=
  l.foldl (fun a c => 10 * a + decVal c) 0

/-! ## Lemmas about the string helpers and write strategies -/

theorem splitOnC_ne_nil (sep : Char) (l : List Char) : splitOnC sep l ≠ [] := by
  cases l with
  | nil => simp [splitOnC]
  | cons c cs =>
    simp only [splitOnC]
    split
    · simp
    · cases h : splitOnC sep cs <;> simp

theorem joinSep_splitOnC (sep : Char) (l : List Char) :
    joinSep sep (splitOnC sep l) = l := by
  induction l with
  | nil => rfl
  | cons c cs ih =>
    simp only [splitOnC]
    split
    · rename_i hc
      cases h : splitOnC sep cs with
      | nil => exact absurd h (splitOnC_ne_nil sep cs)
      | cons a as =>
        rw [h] at ih
        subst hc
        simpa [joinSep] using ih
    · rename_i hc
      cases h : splitOnC sep cs with
      | nil => exact absurd h (splitOnC_ne_nil sep cs)
      | cons a as =>
        rw [h] at ih
        cases as with
        | nil => simpa [joinSep] using ih
        | cons b bs => simpa [joinSep] using ih

theorem flatten_map_append_sep (sep : Char) (ls : List (List Char))
    (h : ls ≠ []) :
    (ls.map (fun l => l ++ [sep])).flatten = joinSep sep ls ++ [sep] := by
  induction ls with
  | nil => exact absurd rfl h
  | cons a as ih =>
    cases as with
    | nil => simp [joinSep]
    | cons b bs =>
      have := ih (by simp)
      simp only [List.map_cons, List.flatten_cons] at this ⊢
      rw [this]
      simp [joinSep]

/-- The `line-by-line` strategy always transmits the command plus one
extra trailing newline. -/
theorem lineByLine_flatten (cmd : List Char) :
    (lineByLine cmd).flatten = cmd ++ ['\n'] := by
  unfold lineByLine
  rw [flatten_map_append_sep '\n' _ (splitOnC_ne_nil '\n' cmd),
    joinSep_splitOnC]

theorem chunkedAux_flatten (f : Nat) (cmd : List Char)
    (h : cmd.length ≤ f) : (chunkedAux f cmd).flatten = cmd := by
  induction f generalizing cmd with
  | zero =>
    have : cmd = [] := List.eq_nil_of_length_eq_zero (Nat.le_zero.mp h)
    simp [this, chunkedAux]
  | succ f ih =>
    simp only [chunkedAux]
    split
    · simpa
    · rename_i hne
      have hlen : (cmd.drop 1024).length ≤ f := by
        have h1 : 0 < cmd.length := List.length_pos.mpr hne
        simp only [List.length_drop]
        omega
      simp only [List.flatten_cons, ih _ hlen, List.take_append_drop]

theorem chunkedAux_mem_le (f : Nat) (cmd w : List Char)
    (h : w ∈ chunkedAux f cmd) : w.length ≤ 1024 := by
  induction f generalizing cmd with
  | zero => simp [chunkedAux] at h
  | succ f ih =>
    simp only [chunkedAux] at h
    split at h
    · simp at h
    · rcases List.mem_cons.mp h with h1 | h2
      · subst h1; exact List.length_take_le 1024 cmd
      · exact ih _ h2

/-! ## Claim C2 -/

/-- C2 (counterexample): the `line-by-line` strategy does not transmit
exactly the command built by `buildEchoCommand`: the concatenation of
its writes differs from the command (it carries one extra newline). -/
theorem C2_counterexample :
    (lineByLine (buildEchoCommand 1 1 0 (str "ab")).cmd).flatten ≠
      (buildEchoCommand 1 1 0 (str "ab")).cmd := by decide

/-- C2 (amended): `single-write` and `chunked-1024` transmit exactly the
command string; `line-by-line` transmits the command string followed by
one extra newline; and every individual write of the chunked strategy
has at most the fixed chunk size of 1024. -/
theorem C2_strategies_transmission (cmd : List Char) :
    (singleWrite cmd).flatten = cmd ∧
    (lineByLine cmd).flatten = cmd ++ ['\n'] ∧
    (chunked1024 cmd).flatten = cmd ∧
    ∀ w ∈ chunked1024 cmd, w.length ≤ 1024 := by
  refine ⟨by simp [singleWrite], lineByLine_flatten cmd, ?_, ?_⟩
  · exact chunkedAux_flatten cmd.length cmd le_rfl
  · exact fun w hw => chunkedAux_mem_le cmd.length cmd w hw

/-- Closed instantiation of `C2_strategies_transmission`, discharging
its membership hypothesis on a concrete command. -/
theorem C2_strategies_transmission_witness :
    (chunked1024 (str "ab")).flatten = str "ab" ∧ (str "ab").length ≤ 1024 :=
  ⟨(C2_strategies_transmission (str "ab")).2.2.1,
   (C2_strategies_transmission (str "ab")).2.2.2 (str "ab") (by decide)⟩

/-! ## Claim C1 -/

theorem totalFailures_eq_zero (rs : List TestResult) :
    totalFailures rs = 0 ↔ ∀ r ∈ rs, r.success = true := by
  unfold totalFailures
  rw [List.length_eq_zero, List.filter_eq_nil_iff]
  simp

/-- C1: `main` exits with status zero if and only if every test case
(every strategy-size combination) completed successfully; if any test
case failed for any reason, the exit status is 1. -/
theorem C1_exit_status (run : List Char → Nat → TestResult) :
    (mainExitCode run = 0 ↔ ∀ r ∈ mainResults run, r.success = true) ∧
    ((∃ r ∈ mainResults run, r.success = false) → mainExitCode run = 1) := by
  constructor
  · unfold mainExitCode
    by_cases h : totalFailures (mainResults run) > 0
    · simp only [h, if_true]
      constructor
      · omega
      · intro hall
        have := (totalFailures_eq_zero _).mpr hall
        omega
    · have h0 : totalFailures (mainResults run) = 0 := by omega
      simpa [h] using (totalFailures_eq_zero _).mp h0
  · rintro ⟨r, hr, hs⟩
    unfold mainExitCode
    have hne : totalFailures (mainResults run) ≠ 0 := by
      intro h0
      have := (totalFailures_eq_zero _).mp h0 r hr
      rw [hs] at this
      exact Bool.false_ne_true this
    simp [Nat.pos_of_ne_zero hne]

/-- Closed instantiation of `C1_exit_status`: a run in which every test
case times out makes `main` exit with status 1. -/
theorem C1_exit_status_witness :
    mainExitCode (fun _ _ =>
      { success := false, reason := str "TIMEOUT", cmdBytes := 0,
        output := [] }) = 1 :=
  (C1_exit_status _).2
    ⟨{ success := false, reason := str "TIMEOUT", cmdBytes := 0, output := [] },
     by decide, rfl⟩

/-! ## Claim C3 -/

/-- C3: on every exit path of the extension's `runSingleTest` — marker
found, timeout, or an exception thrown while sending — the `finally`
block disposes the terminal and then deletes the temporary result file,
so no run leaves an orphaned temporary result file. -/
theorem C3_cleanup_every_path (numLines : Nat) (tmpdir : List Char)
    (pid now : Nat) (rand : List Char) (env : ExtEnv) :
    ∃ pre, (runSingleTest numLines tmpdir pid now rand env).2 =
      pre ++ [ExtAction.dispose, ExtAction.unlinkTmp] := by
  refine ⟨[ExtAction.unlinkTmp, ExtAction.createTerminal, ExtAction.sendText], ?_⟩
  cases h : env.sendThrows <;> simp [runSingleTest, h]

/-! ## Claim C4 -/

theorem ptyStep_taxonomy (marker : List Char) (cb : Nat) (st : PtyState)
    (e : PtyEvent)
    (h : ∀ r, st.result = some r → reasonInTaxonomy marker r) :
    ∀ r, (ptyStep marker cb st e).result = some r →
      reasonInTaxonomy marker r := by
  intro r hr
  cases e with
  | data d =>
    simp only [ptyStep] at hr
    split at hr
    · rename_i hm
      unfold finish at hr
      split at hr
      · exact h r hr
      · simp only [Option.some.injEq] at hr
        subst hr
        exact Or.inl ⟨rfl, rfl, hm⟩
    · exact h r hr
  | timeout =>
    simp only [ptyStep] at hr
    unfold finish at hr
    split at hr
    · exact h r hr
    · simp only [Option.some.injEq] at hr
      subst hr
      refine Or.inr ⟨rfl, ?_⟩
      split
      · exact Or.inr (Or.inl rfl)
      · split
        · exact Or.inr (Or.inr (Or.inl rfl))
        · exact Or.inl rfl
  | writeError msg =>
    simp only [ptyStep] at hr
    unfold finish at hr
    split at hr
    · exact h r hr
    · simp only [Option.some.injEq] at hr
      subst hr
      exact Or.inr ⟨rfl, Or.inr (Or.inr (Or.inr ⟨msg, rfl⟩))⟩

theorem ptyRun_taxonomy (marker : List Char) (cb : Nat)
    (evs : List PtyEvent) :
    ∀ r, (ptyRun marker cb evs).result = some r →
      reasonInTaxonomy marker r := by
  suffices h : ∀ st, (∀ r, st.result = some r → reasonInTaxonomy marker r) →
      ∀ r, (evs.foldl (ptyStep marker cb) st).result = some r →
        reasonInTaxonomy marker r by
    refine h ptyInit ?_
    intro r hr
    simp [ptyInit] at hr
  induction evs with
  | nil => exact fun st h => h
  | cons e es ih =>
    intro st h
    exact ih _ (ptyStep_taxonomy marker cb st e h)

/-- C4: every settled test-case result carries `success = true` with
reason `OK` (and the marker observed in the output, respectively in the
polled file before the timeout) if and only if the completion marker was
seen; otherwise `success = false` with a reason drawn exactly from the
classification taxonomy: timeout with no artifact, timeout with a
partial artifact, a stuck continuation prompt, or a write error.  The
first conjunct covers `testNodePty`, the second the extension's
`runSingleTest`. -/
theorem C4_result_classification :
    (∀ marker cb evs r, (ptyRun marker cb evs).result = some r →
      reasonInTaxonomy marker r) ∧
    (∀ numLines tmpdir pid now rand env res acts,
      runSingleTest numLines tmpdir pid now rand env = (Except.ok res, acts) →
      (res.success = true ↔ res.reason = str "OK") ∧
      (res.success = true ↔
        pollLoop (buildTest numLines 50 tmpdir pid now rand).marker
          env.fileAt env.polls 0 = true) ∧
      (res.success = false →
        (∃ c, res.reason =
          str "TIMEOUT (partial file: " ++ c ++ str ")") ∨
        res.reason =
          str "TIMEOUT (no output file — command likely stuck in quote> mode)")) := by
  constructor
  · exact fun marker cb evs => ptyRun_taxonomy marker cb evs
  · intro numLines tmpdir pid now rand env res acts h
    cases hs : env.sendThrows with
    | some msg =>
      simp only [runSingleTest, hs] at h
      exact Except.noConfusion (congrArg Prod.fst h)
    | none =>
      simp only [runSingleTest, hs] at h
      have hbody := congrArg Prod.fst h
      simp only at hbody
      by_cases hp : pollLoop (buildTest numLines 50 tmpdir pid now rand).marker
          env.fileAt env.polls 0 = true
      · rw [if_pos hp] at hbody
        injection hbody with hb
        subst hb
        refine ⟨by simp, by simp [hp], ?_⟩
        intro hfalse
        simp at hfalse
      · rw [if_neg hp] at hbody
        cases hf : env.fileAt env.polls with
        | some content =>
          rw [hf] at hbody
          injection hbody with hb
          subst hb
          refine ⟨?_, ?_, ?_⟩
          · simp only [Bool.false_eq_true, false_iff]
            intro hok
            simp [str] at hok
          · simp [hp]
          · exact fun _ => Or.inl ⟨(trim content).take 50, rfl⟩
        | none =>
          rw [hf] at hbody
          injection hbody with hb
          subst hb
          refine ⟨?_, ?_, ?_⟩
          · simp only [Bool.false_eq_true, false_iff]
            intro hok
            simp [str] at hok
          · simp [hp]
          · exact fun _ => Or.inr rfl

/-- Closed instantiation of `C4_result_classification`: a run whose only
event is the timeout is classified as a `TIMEOUT` failure, and a
successful polled run is classified `OK`. -/
theorem C4_result_classification_witness :
    reasonInTaxonomy (str "M")
      { success := false, reason := str "TIMEOUT", cmdBytes := 0,
        output := [] } ∧
    (({ success := true, reason := str "OK",
        cmdBytes := (buildTest 1 50 (str "/t") 0 0 (str "ab")).cmdBytes } :
        SingleResult).success = true ↔
      pollLoop (buildTest 1 50 (str "/t") 0 0 (str "ab")).marker
        (fun _ => some (str "DONE_1_0_ab")) 1 0 = true) :=
  ⟨C4_result_classification.1 (str "M") 0 [PtyEvent.timeout] _ (by decide),
   (C4_result_classification.2 1 (str "/t") 0 0 (str "ab")
      ⟨none, fun _ => some (str "DONE_1_0_ab"), 1⟩
      { success := true, reason := str "OK",
        cmdBytes := (buildTest 1 50 (str "/t") 0 0 (str "ab")).cmdBytes }
      [ExtAction.unlinkTmp, ExtAction.createTerminal, ExtAction.sendText,
       ExtAction.dispose, ExtAction.unlinkTmp] rfl).2.1⟩

/-! ## Claim C5 -/

theorem sizeIterGo_trace (outcome : Nat → Bool) (i : Nat) :
    ∀ rem, (sizeIterGo outcome i rem).2.2 = List.range' i rem := by
  intro rem
  induction rem generalizing i with
  | zero => rfl
  | succ rem ih => simp [sizeIterGo, ih, List.range']

theorem sizeIterGo_count (outcome : Nat → Bool) (i : Nat) :
    ∀ rem, (sizeIterGo outcome i rem).1 + (sizeIterGo outcome i rem).2.1 = rem := by
  intro rem
  induction rem generalizing i with
  | zero => rfl
  | succ rem ih =>
    simp only [sizeIterGo]
    have h := ih (i + 1)
    cases outcome i <;> simp <;> omega

theorem runAllTestsGo_trace (outcome : Nat → Nat → Bool) (sizes : List Nat) :
    (runAllTestsGo outcome sizes).2.2 =
      sizes.flatMap (fun n => (List.range' 0 iterations).map (fun i => (n, i))) := by
  induction sizes with
  | nil => rfl
  | cons n rest ih =>
    simp [runAllTestsGo, sizeIterLoop, sizeIterGo_trace, ih]

theorem runAllTestsGo_counts (outcome : Nat → Nat → Bool) (sizes : List Nat) :
    ∀ sr ∈ (runAllTestsGo outcome sizes).2.1,
      sr.passed + sr.failed = iterations := by
  induction sizes with
  | nil => simp [runAllTestsGo]
  | cons n rest ih =>
    intro sr hsr
    simp only [runAllTestsGo, List.mem_cons] at hsr
    rcases hsr with h | h
    · subst h
      exact sizeIterGo_count (outcome n) 0 iterations
    · exact ih sr h

/-- C5 (counterexample): with every `runSingleTest` call failing, the
first iteration for size 20 fails, yet `runAllTests` still calls
`runSingleTest` for iteration 1 of the same size — the remaining
iterations are not skipped. -/
theorem C5_counterexample :
    (fun (_ : Nat) (_ : Nat) => false) 20 0 = false ∧
    (20, 1) ∈ (runAllTests (fun _ _ => false)).2.2 := by
  exact ⟨rfl, by decide⟩

/-- C5 (amended): `runAllTests` never skips an iteration: whatever the
per-call outcomes, `runSingleTest` is called for every test size and
every iteration index `0, 1, 2` — the call trace is independent of
failures — and each size's `passed` and `failed` counters always sum to
`iterations`. -/
theorem C5_no_skipping (outcome : Nat → Nat → Bool) :
    (runAllTests outcome).2.2 =
      extTestSizes.flatMap
        (fun n => (List.range' 0 iterations).map (fun i => (n, i))) ∧
    ∀ sr ∈ (runAllTests outcome).2.1, sr.passed + sr.failed = iterations :=
  ⟨runAllTestsGo_trace outcome extTestSizes,
   runAllTestsGo_counts outcome extTestSizes⟩

/-- Closed instantiation of `C5_no_skipping`, discharging its membership
hypothesis on the all-pass outcome. -/
theorem C5_no_skipping_witness :
    ({ numLines := 18, passed := 3, failed := 0 } : SizeResult).passed +
      ({ numLines := 18, passed := 3, failed := 0 } : SizeResult).failed =
        iterations :=
  (C5_no_skipping (fun _ _ => true)).2
    { numLines := 18, passed := 3, failed := 0 } (by decide)

/-! ## Claim C6 -/

/-- C6 (counterexample): a zero-failure completion of the CI test-suite
run persists no JSON summary file at all. -/
theorem C6_counterexample :
    ¬ ∃ f rs, HostAction.writeResultsFile f rs ∈ (suiteRun 0 []).1 := by
  simp [suiteRun]

/-- C6 (amended): a JSON summary file (failure count and per-size
results) is persisted only by the CI test-suite runner and only when at
least one test failed; a zero-failure completion writes nothing, and the
user-invokable `ptyRepro.run` command never writes a file at all. -/
theorem C6_summary_persistence (failures : Nat) (results : List SizeResult) :
    ((∃ a ∈ (suiteRun failures results).1,
        a = HostAction.writeResultsFile failures results) ↔ failures > 0) ∧
    ∀ f, ∀ a ∈ ptyReproRunCommand f, ∀ g rs,
      a ≠ HostAction.writeResultsFile g rs := by
  constructor
  · by_cases h : failures > 0 <;> simp [suiteRun, h]
  · intro f a ha g rs
    unfold ptyReproRunCommand at ha
    split at ha <;> simp only [List.mem_singleton] at ha <;> subst ha <;> simp

/-- Closed instantiation of `C6_summary_persistence`: a one-failure run
does persist the JSON summary. -/
theorem C6_summary_persistence_witness :
    ∃ a ∈ (suiteRun 1 []).1, a = HostAction.writeResultsFile 1 [] :=
  (C6_summary_persistence 1 []).1.mpr (by decide)

/-! ## Claim C7 -/

theorem natToDecAux_small (f n : Nat) (hf : 0 < f) (hn : n < 10) :
    natToDecAux f n = [Nat.digitChar n] := by
  cases f with
  | zero => omega
  | succ f => simp [natToDecAux, hn]

theorem natToDec_length_one (n : Nat) (hn : n < 10) :
    (natToDec n).length = 1 := by
  rw [natToDec, natToDecAux_small (n + 1) n (Nat.succ_pos n) hn]
  rfl

theorem natToDec_length_two (n : Nat) (h10 : 10 ≤ n) (h99 : n ≤ 99) :
    (natToDec n).length = 2 := by
  rw [natToDec]
  show (natToDecAux (n + 1) n).length = 2
  rw [show natToDecAux (n + 1) n =
      if n < 10 then [Nat.digitChar n]
      else natToDecAux n (n / 10) ++ [Nat.digitChar (n % 10)] from rfl]
  rw [if_neg (by omega)]
  rw [natToDecAux_small n (n / 10) (by omega) (by omega)]
  rfl

theorem padStart2_length (s : List Char) (h : s.length ≤ 2) :
    (padStart2 s).length = 2 := by
  unfold padStart2
  split
  · simp only [List.length_append, List.length_replicate]
    omega
  · omega

theorem payloadLine_length (i lineLength : Nat) (h1 : 1 ≤ i) (h99 : i ≤ 99) :
    (payloadLine i lineLength).length = lineLength + 4 := by
  have hd : (natToDec i).length ≤ 2 := by
    by_cases hi : i < 10
    · rw [natToDec_length_one i hi]; omega
    · rw [natToDec_length_two i (by omega) h99]
  unfold payloadLine
  rw [show str "L" = ['L'] from rfl, show str " " = [' '] from rfl]
  simp only [List.length_append, List.length_replicate, List.length_cons,
    List.length_nil, padStart2_length (natToDec i) hd]
  omega

theorem joinSep_length (sep : Char) (ls : List (List Char)) (h : ls ≠ []) :
    (joinSep sep ls).length = (ls.map List.length).sum + (ls.length - 1) := by
  induction ls with
  | nil => exact absurd rfl h
  | cons a as ih =>
    cases as with
    | nil => simp [joinSep]
    | cons b bs =>
      have hrec := ih (by simp)
      simp only [joinSep, List.length_append, List.length_cons, hrec,
        List.map_cons, List.sum_cons]
      omega

theorem payloadContent_length (numLines lineLength : Nat) (h1 : 1 ≤ numLines)
    (h99 : numLines ≤ 99) :
    (payloadContent numLines lineLength).length =
      numLines * (lineLength + 4) + (numLines - 1) := by
  unfold payloadContent
  have hne : (List.range' 1 numLines).map
      (fun i => payloadLine i lineLength) ≠ [] := by
    intro h
    have hl := congrArg List.length h
    simp at hl
    omega
  rw [joinSep_length '\n' _ hne]
  have hmm : ((List.range' 1 numLines).map
      (fun i => payloadLine i lineLength)).map List.length =
      (List.range' 1 numLines).map (fun _ => lineLength + 4) := by
    rw [List.map_map]
    refine List.map_congr_left ?_
    intro i hi
    have := List.mem_range'_1.mp hi
    exact payloadLine_length i lineLength this.1 (by omega)
  rw [hmm, List.map_const', List.sum_replicate, List.length_range',
    List.length_map, List.length_range', smul_eq_mul]

/-- C7 (counterexample): the multiline payload for 20 lines of 50
`a`-characters does not have length 1119 (that figure belongs to the
README example, whose lines carry 51 `a`-characters). -/
theorem C7_counterexample : (payloadContent 20 50).length ≠ 1119 := by decide

/-- C7 (amended): for every `numLines` from 1 to 99 and every
`lineLength`, the payload built by `buildEchoCommand`/`buildTest` has
length `numLines * (lineLength + 4) + (numLines - 1)`; in particular the
20-line, 50-character payload has 1099 characters, so the byte-count
command over the echoed payload (which appends one newline) reports
1100; and the recorded `cmdBytes` equals the length of the full command
string. -/
theorem C7_payload_length :
    (∀ numLines lineLength, 1 ≤ numLines → numLines ≤ 99 →
      (payloadContent numLines lineLength).length =
        numLines * (lineLength + 4) + (numLines - 1)) ∧
    (payloadContent 20 50).length = 1099 ∧
    wcBytes (payloadContent 20 50) = 1100 ∧
    ∀ numLines lineLength tmpdir pid now rand,
      (buildTest numLines lineLength tmpdir pid now rand).cmdBytes =
        (buildTest numLines lineLength tmpdir pid now rand).cmd.length := by
  have h20 : (payloadContent 20 50).length = 1099 := by
    rw [payloadContent_length 20 50 (by norm_num) (by norm_num)]
  refine ⟨payloadContent_length, h20, ?_, fun _ _ _ _ _ _ => rfl⟩
  rw [wcBytes, h20]

/-- Closed instantiation of `C7_payload_length`, discharging its range
hypotheses at the concrete 20-line, 50-character payload. -/
theorem C7_payload_length_witness :
    (payloadContent 20 50).length = 20 * (50 + 4) + (20 - 1) :=
  C7_payload_length.1 20 50 (by norm_num) (by norm_num)

/-! ## Claim C8 -/

/-- C8: when the timeout fires on an unresolved run, `testNodePty`
records a failure whose reason is exactly the specification's
classification of the captured output (heredoc prompt, then
quote/dquote prompt, then plain `TIMEOUT`). -/
theorem C8_timeout_classification (marker : List Char) (cb : Nat)
    (st : PtyState) (h : st.finished = false) :
    (ptyStep marker cb st PtyEvent.timeout).result =
      some { success := false, reason := specTimeoutReason st.output,
             cmdBytes := cb, output := st.output } := by
  simp only [ptyStep, finish, h, Bool.false_eq_true, if_false,
    Option.some.injEq]
  unfold specTimeoutReason
  by_cases h1 : containsSeq (str "heredoc>") st.output = true
  · simp [h1]
  · by_cases h2 : containsSeq (str "quote>") st.output = true
    · simp [h1, h2]
    · by_cases h3 : containsSeq (str "dquote>") st.output = true
      · simp [h1, h2, h3]
      · simp [h1, h2, h3]

/-- Closed instantiation of `C8_timeout_classification` at the initial
(unresolved, empty-output) state. -/
theorem C8_timeout_classification_witness :
    (ptyStep (str "M") 0 ptyInit PtyEvent.timeout).result =
      some { success := false, reason := specTimeoutReason [],
             cmdBytes := 0, output := [] } :=
  C8_timeout_classification (str "M") 0 ptyInit rfl

/-! ## Claim C10 -/

theorem finish_inv (cb : Nat) (st : PtyState) (s : Bool) (rn : List Char)
    (h : ∀ r, st.result = some r → st.finished = true ∧ st.killed = true) :
    ∀ r, (finish cb st s rn).result = some r →
      (finish cb st s rn).finished = true ∧ (finish cb st s rn).killed = true := by
  intro r hr
  by_cases hf : st.finished = true
  · simp only [finish, hf, if_true] at hr ⊢
    exact ⟨trivial, (h r hr).2⟩
  · have hf' : st.finished = false := by
      revert hf; cases st.finished <;> simp
    simp [finish, hf']

theorem ptyStep_inv (marker : List Char) (cb : Nat) (st : PtyState)
    (e : PtyEvent)
    (h : ∀ r, st.result = some r → st.finished = true ∧ st.killed = true) :
    ∀ r, (ptyStep marker cb st e).result = some r →
      (ptyStep marker cb st e).finished = true ∧
      (ptyStep marker cb st e).killed = true := by
  cases e with
  | data d =>
    simp only [ptyStep]
    split
    · exact finish_inv _ _ _ _ h
    · exact h
  | timeout =>
    simp only [ptyStep]
    exact finish_inv _ _ _ _ h
  | writeError msg =>
    simp only [ptyStep]
    exact finish_inv _ _ _ _ h

theorem ptyFold_inv (marker : List Char) (cb : Nat) (evs : List PtyEvent) :
    ∀ st, (∀ r, st.result = some r → st.finished = true ∧ st.killed = true) →
      ∀ r, ((evs.foldl (ptyStep marker cb) st).result = some r →
        (evs.foldl (ptyStep marker cb) st).finished = true ∧
        (evs.foldl (ptyStep marker cb) st).killed = true) := by
  induction evs with
  | nil => exact fun st h => h
  | cons e es ih =>
    intro st h
    exact ih _ (ptyStep_inv marker cb st e h)

theorem ptyStep_finished_frozen (marker : List Char) (cb : Nat)
    (st : PtyState) (e : PtyEvent) (h : st.finished = true) :
    (ptyStep marker cb st e).finished = true ∧
    (ptyStep marker cb st e).result = st.result ∧
    (ptyStep marker cb st e).killed = st.killed := by
  cases e <;> simp only [ptyStep, finish, h, if_true] <;>
    first
      | (split <;> simp [h])
      | simp

theorem ptyFold_frozen (marker : List Char) (cb : Nat)
    (evs : List PtyEvent) :
    ∀ st, st.finished = true →
      (evs.foldl (ptyStep marker cb) st).finished = true ∧
      (evs.foldl (ptyStep marker cb) st).result = st.result ∧
      (evs.foldl (ptyStep marker cb) st).killed = st.killed := by
  induction evs with
  | nil => exact fun st h => ⟨h, rfl, rfl⟩
  | cons e es ih =>
    intro st h
    have hs := ptyStep_finished_frozen marker cb st e h
    have hrest := ih _ hs.1
    exact ⟨hrest.1, hrest.2.1.trans hs.2.1, hrest.2.2.trans hs.2.2⟩

/-- C10: the `testNodePty` promise resolves exactly once: once a run's
events have recorded a result (success on marker, or failure on timeout
or write error), any continuation of the event sequence — later timeout
firings, further data deliveries, later write errors — leaves the
recorded result unchanged, and the pty process is killed as part of
that single resolution. -/
theorem C10_resolve_once (marker : List Char) (cb : Nat)
    (evs evs' : List PtyEvent) (r : TestResult)
    (h : (ptyRun marker cb evs).result = some r) :
    (ptyRun marker cb (evs ++ evs')).result = some r ∧
    (ptyRun marker cb (evs ++ evs')).killed = true := by
  have hinv := ptyFold_inv marker cb evs ptyInit
    (by intro r hr; simp [ptyInit] at hr) r h
  have happ : ptyRun marker cb (evs ++ evs') =
      evs'.foldl (ptyStep marker cb) (ptyRun marker cb evs) := by
    simp [ptyRun, List.foldl_append]
  have hfro := ptyFold_frozen marker cb evs' (ptyRun marker cb evs) hinv.1
  rw [happ]
  exact ⟨hfro.2.1.trans h, hfro.2.2.trans hinv.2⟩

/-- Closed instantiation of `C10_resolve_once`: after the marker is
seen, a later timeout and write error leave the resolved result in
place. -/
theorem C10_resolve_once_witness :
    (ptyRun (str "M") 7
      ([PtyEvent.data (str "M")] ++
        [PtyEvent.timeout, PtyEvent.writeError (str "e")])).result =
      some { success := true, reason := str "OK", cmdBytes := 7,
             output := str "M" } ∧
    (ptyRun (str "M") 7
      ([PtyEvent.data (str "M")] ++
        [PtyEvent.timeout, PtyEvent.writeError (str "e")])).killed = true :=
  C10_resolve_once (str "M") 7 [PtyEvent.data (str "M")]
    [PtyEvent.timeout, PtyEvent.writeError (str "e")] _ (by decide)

/-! ## Claim C9

The markers embed the line count, `Date.now()` and a random base-36
suffix, separated by underscores.  `Date.now()` and `Math.random()` can
return equal values across calls, so marker uniqueness is exactly
uniqueness of those inputs; this is proved by decomposing a marker at
its underscores (the decimal fields and the base-36 suffix are
underscore-free) and inverting the decimal representation. -/

theorem splitOnC_no_sep (sep : Char) (l : List Char)
    (h : ∀ c ∈ l, c ≠ sep) : splitOnC sep l = [l] := by
  induction l with
  | nil => rfl
  | cons c cs ih =>
    have hc : c ≠ sep := h c (by simp)
    simp only [splitOnC, if_neg hc]
    rw [ih (fun x hx => h x (by simp [hx]))]

theorem splitOnC_append_sep (sep : Char) (xs ys : List Char)
    (h : ∀ c ∈ xs, c ≠ sep) :
    splitOnC sep (xs ++ sep :: ys) = xs :: splitOnC sep ys := by
  induction xs with
  | nil => simp [splitOnC]
  | cons x xs ih =>
    have hx : x ≠ sep := h x (by simp)
    simp only [List.cons_append, splitOnC, if_neg hx, List.append_eq]
    rw [ih (fun c hc => h c (by simp [hc]))]

theorem decToNat_append_singleton (l : List Char) (c : Char) :
    decToNat (l ++ [c]) = 10 * decToNat l + decVal c := by
  simp [decToNat, List.foldl_append]

theorem decVal_digitChar : ∀ d < 10, decVal (Nat.digitChar d) = d := by decide

theorem digitChar_ne_underscore : ∀ d < 10, Nat.digitChar d ≠ '_' := by decide

theorem natToDecAux_no_underscore (f : Nat) :
    ∀ n, ∀ c ∈ natToDecAux f n, c ≠ '_' := by
  induction f with
  | zero => intro n c hc; simp [natToDecAux] at hc
  | succ f ih =>
    intro n c hc
    simp only [natToDecAux] at hc
    split at hc
    · rename_i hn
      simp only [List.mem_singleton] at hc
      subst hc
      exact digitChar_ne_underscore n hn
    · rcases List.mem_append.mp hc with h1 | h2
      · exact ih _ c h1
      · simp only [List.mem_singleton] at h2
        subst h2
        exact digitChar_ne_underscore _ (Nat.mod_lt n (by norm_num))

theorem decToNat_natToDecAux (f : Nat) :
    ∀ n, n < f → decToNat (natToDecAux f n) = n := by
  induction f with
  | zero => omega
  | succ f ih =>
    intro n hn
    simp only [natToDecAux]
    split
    · rename_i h10
      show decToNat [Nat.digitChar n] = n
      simp only [decToNat, List.foldl_cons, List.foldl_nil, Nat.mul_zero,
        Nat.zero_add]
      exact decVal_digitChar n h10
    · rename_i h10
      have hdiv : n / 10 < n := Nat.div_lt_self (by omega) (by norm_num)
      rw [decToNat_append_singleton, ih (n / 10) (by omega),
        decVal_digitChar (n % 10) (Nat.mod_lt n (by norm_num))]
      exact Nat.div_add_mod n 10

theorem natToDec_no_underscore (n : Nat) : ∀ c ∈ natToDec n, c ≠ '_' :=
  natToDecAux_no_underscore (n + 1) n

theorem natToDec_inj (a b : Nat) (h : natToDec a = natToDec b) : a = b := by
  have ha := decToNat_natToDecAux (a + 1) a (by omega)
  have hb := decToNat_natToDecAux (b + 1) b (by omega)
  rw [natToDec] at h
  rw [← ha, h]
  exact hb

theorem splitOnC_cons_sep (sep : Char) (l : List Char) :
    splitOnC sep (sep :: l) = [] :: splitOnC sep l := by
  simp [splitOnC]

theorem splitOnC_nodePtyMarker (n t : Nat) (r : List Char)
    (hr : ∀ c ∈ r, c ≠ '_') :
    splitOnC '_' (nodePtyMarker n t r) =
      [[], [], str "DONE", natToDec n, natToDec t, r, [], []] := by
  have e1 : nodePtyMarker n t r =
      '_' :: '_' :: (str "DONE" ++ '_' :: (natToDec n ++ '_' ::
        (natToDec t ++ '_' :: (r ++ '_' :: ['_'])))) := by
    simp [nodePtyMarker, str]
  rw [e1, splitOnC_cons_sep, splitOnC_cons_sep,
    splitOnC_append_sep '_' (str "DONE") _ (by decide),
    splitOnC_append_sep '_' _ _ (natToDec_no_underscore n),
    splitOnC_append_sep '_' _ _ (natToDec_no_underscore t),
    splitOnC_append_sep '_' _ _ hr, splitOnC_cons_sep]
  rfl

theorem splitOnC_extMarker (n t : Nat) (r : List Char)
    (hr : ∀ c ∈ r, c ≠ '_') :
    splitOnC '_' (extMarker n t r) =
      [str "DONE", natToDec n, natToDec t, r] := by
  have e1 : extMarker n t r =
      str "DONE" ++ '_' :: (natToDec n ++ '_' :: (natToDec t ++ '_' :: r)) := by
    simp [extMarker, str]
  rw [e1, splitOnC_append_sep '_' (str "DONE") _ (by decide),
    splitOnC_append_sep '_' _ _ (natToDec_no_underscore n),
    splitOnC_append_sep '_' _ _ (natToDec_no_underscore t),
    splitOnC_no_sep '_' r hr]

/-- C9 (counterexample): two distinct test cases of the node-pty run —
`(single-write, 20)` at index 1 and `(line-by-line, 20)` at index 4 —
receive the same marker when the clock and random suffix happen to
coincide across the two calls; the code does not prevent this. -/
theorem C9_counterexample :
    nodePtyCases[1]? ≠ nodePtyCases[4]? ∧
    caseMarker (fun _ => (5, str "abcd")) 1 =
      caseMarker (fun _ => (5, str "abcd")) 4 :=
  ⟨by decide, by decide⟩

/-- C9 (amended): two generated markers (node-pty or extension variant)
are equal exactly when they were built from the same line count, the
same `Date.now()` value and the same underscore-free random suffix; so
markers of distinct test cases are pairwise distinct if and only if
those input triples differ — which the code does not itself enforce for
test cases sharing a line count. -/
theorem C9_marker_uniqueness (n1 t1 n2 t2 : Nat) (r1 r2 : List Char)
    (h1 : ∀ c ∈ r1, c ≠ '_') (h2 : ∀ c ∈ r2, c ≠ '_') :
    (nodePtyMarker n1 t1 r1 = nodePtyMarker n2 t2 r2 ↔
      (n1 = n2 ∧ t1 = t2 ∧ r1 = r2)) ∧
    (extMarker n1 t1 r1 = extMarker n2 t2 r2 ↔
      (n1 = n2 ∧ t1 = t2 ∧ r1 = r2)) := by
  constructor
  · constructor
    · intro h
      have hs := congrArg (splitOnC '_') h
      rw [splitOnC_nodePtyMarker n1 t1 r1 h1,
        splitOnC_nodePtyMarker n2 t2 r2 h2] at hs
      injection hs with e1 hs
      injection hs with e2 hs
      injection hs with e3 hs
      injection hs with e4 hs
      injection hs with e5 hs
      injection hs with e6 hs
      exact ⟨natToDec_inj n1 n2 e4, natToDec_inj t1 t2 e5, e6⟩
    · rintro ⟨rfl, rfl, rfl⟩; rfl
  · constructor
    · intro h
      have hs := congrArg (splitOnC '_') h
      rw [splitOnC_extMarker n1 t1 r1 h1,
        splitOnC_extMarker n2 t2 r2 h2] at hs
      injection hs with e1 hs
      injection hs with e2 hs
      injection hs with e3 hs
      injection hs with e4 hs
      exact ⟨natToDec_inj n1 n2 e2, natToDec_inj t1 t2 e3, e4⟩
    · rintro ⟨rfl, rfl, rfl⟩; rfl

/-- Closed instantiation of `C9_marker_uniqueness`: markers of two test
cases with different line counts are distinct. -/
theorem C9_marker_uniqueness_witness :
    nodePtyMarker 18 5 (str "abcd") ≠ nodePtyMarker 20 5 (str "abcd") := by
  intro h
  have hd := (C9_marker_uniqueness 18 5 20 5 (str "abcd") (str "abcd")
    (by decide) (by decide)).1.mp h
  exact absurd hd.1 (by omega)

end PtyRepro
